import Mathlib

/-!
Verification development for the license-key subsystem of the
ai-resume-generator repository: the signer/verifier for license tokens
(utils/license-generator and the licenseUtils copy in the monolithic server),
the license record store, the activation ledger implemented by the
/api/license/verify and /api/license/deactivate routes, and the Gumroad
webhook issuance handler.

Modelling conventions.
Strings (emails, machine ids, license keys, signatures) are modelled as
lists of natural numbers (byte strings).  Timestamps are natural numbers
(milliseconds since epoch, as in JavaScript Date values).  The HMAC-SHA256
keyed MAC is modelled as an explicit function parameter, mac : secret ->
message -> tag; collision-freeness, where a theorem needs it, is an explicit
hypothesis.  The base64 + JSON token envelope of the source (base64 of a
JSON object with fields data and sig, where sig is a fixed-length hex
digest) is modelled as the canonical serialization of the payload followed
by the signature tag; the signature length is the sigLen parameter, fixed
by the MAC scheme (64 hex characters for HMAC-SHA256 in the source).
-/

/-- Byte strings: the model of JavaScript strings on the wire. -/
abbrev Bytes := List Nat

/-- Length-prefixed encoding of one string field, mirroring one
JSON-serialized string field of the payload object. -/
def encStr (s : Bytes) : Bytes := s.length :: s

/-- Encoding of an optional numeric field (absent / present). -/
def encOpt : Option Nat → Bytes
  | none => [0]
  | some e => [1, e]

/-- The license payload as built by generateLicenseKey in
utils/license-generator (and the identical licenseUtils copy in the
monolithic server): the caller-supplied fields plus the createdAt timestamp
and the random uid added at issuance.  The second generator variant in the
repository (userId, productId, expirationDate, uniqueId, createdAt) has the
same shape up to field names: userId maps to email, productId to name,
expirationDate to expiresAt and uniqueId to uid. -/
structure LicenseData where
  email : Bytes
  name : Bytes
  meta : Bytes
  expiresAt : Option Nat
  createdAt : Nat
  uid : Bytes
deriving DecidableEq, Repr

/-- The caller-supplied payload handed to issuance, before createdAt and
uid are added (the data argument of generateLicenseKey). -/
structure InputData where
  email : Bytes
  name : Bytes
  meta : Bytes
  expiresAt : Option Nat
deriving DecidableEq, Repr

/-- Canonical serialization of the payload: the model of
JSON.stringify(licenseData) with the fixed key order produced by the
generator. -/
def serializeData (d : LicenseData) : Bytes :=
  encStr d.email ++ encStr d.name ++ encStr d.meta ++
    encOpt d.expiresAt ++ [d.createdAt] ++ encStr d.uid

/-- Read one length-prefixed string field; returns the field and the rest. -/
def readStr : Bytes → Option (Bytes × Bytes)
  | [] => none
  | n :: rest => if n ≤ rest.length then some (rest.take n, rest.drop n) else none

/-- Read one optional numeric field. -/
def readOpt (l : Bytes) : Option (Option Nat × Bytes) :=
  match l with
  | [] => none
  | t :: rest =>
    if t = 0 then some (none, rest)
    else if t = 1 then
      match rest with
      | [] => none
      | e :: rest2 => some (some e, rest2)
    else none

/-- Read one numeric field. -/
def readNat : Bytes → Option (Nat × Bytes)
  | [] => none
  | n :: rest => some (n, rest)

/-- Parse a serialized payload, returning the payload and unconsumed rest:
the model of JSON.parse on the data member of the token envelope. -/
def parseData (l : Bytes) : Option (LicenseData × Bytes) :=
  match readStr l with
  | none => none
  | some (email, l1) =>
    match readStr l1 with
    | none => none
    | some (name, l2) =>
      match readStr l2 with
      | none => none
      | some (meta, l3) =>
        match readOpt l3 with
        | none => none
        | some (expiresAt, l4) =>
          match readNat l4 with
          | none => none
          | some (createdAt, l5) =>
            match readStr l5 with
            | none => none
            | some (uid, l6) =>
              some (⟨email, name, meta, expiresAt, createdAt, uid⟩, l6)

/-- Parse a serialized payload requiring the whole input to be consumed. -/
def parseDataAll (l : Bytes) : Option LicenseData :=
  match parseData l with
  | some (d, []) => some d
  | _ => none

/-- The payload actually signed by issuance: caller data plus createdAt
and uid (the spread-then-add step of generateLicenseKey). -/
def issuedData (p : InputData) (now : Nat) (uid : Bytes) : LicenseData :=
  ⟨p.email, p.name, p.meta, p.expiresAt, now, uid⟩

/-- generateLicenseKey from utils/license-generator: add createdAt and uid
to the payload, serialize, sign with the keyed MAC, and emit the token
(serialized payload followed by signature) together with the payload. -/
def generateLicenseKey (mac : Bytes → Bytes → Bytes) (secret : Bytes)
    (p : InputData) (now : Nat) (uid : Bytes) : Bytes × LicenseData :=
  let d := issuedData p now uid
  (serializeData d ++ mac secret (serializeData d), d)

/-- Result of verifyLicenseKey: the reason strings of the source mapped to
constructors. -/
inductive VerifyResult where
  | invalidFormat
  | invalidSignature
  | expired
  | valid (data : LicenseData)
deriving DecidableEq, Repr

/-- verifyLicenseKey from utils/license-generator: decode the token (any
decode or parse failure yields invalidFormat), recompute the MAC over the
re-serialized embedded payload and compare with the embedded signature,
then check expiry (expired exactly when the payload carries expiresAt and
now is strictly past it), and otherwise return the payload. -/
def verifyLicenseKey (mac : Bytes → Bytes → Bytes) (secret : Bytes)
    (sigLen : Nat) (now : Nat) (licenseKey : Bytes) : VerifyResult :=
  match parseDataAll (licenseKey.take (licenseKey.length - sigLen)) with
  | none => .invalidFormat
  | some d =>
    if licenseKey.drop (licenseKey.length - sigLen) = mac secret (serializeData d) then
      match d.expiresAt with
      | some e => if e < now then .expired else .valid d
      | none => .valid d
    else .invalidSignature

/-! ### Parser round-trip and strictness -/

theorem readStr_encStr (s rest : Bytes) : readStr (encStr s ++ rest) = some (s, rest) := by
  simp [readStr, encStr, List.take_left' rfl, List.drop_left' rfl, Nat.le_add_right]

theorem readOpt_encOpt (o : Option Nat) (rest : Bytes) :
    readOpt (encOpt o ++ rest) = some (o, rest) := by
  cases o <;> simp [readOpt, encOpt]

theorem readNat_cons (n : Nat) (rest : Bytes) : readNat (n :: rest) = some (n, rest) := rfl

theorem readStr_strict {l s rest : Bytes} (h : readStr l = some (s, rest)) :
    l = encStr s ++ rest := by
  match l with
  | [] => simp [readStr] at h
  | n :: tl =>
    by_cases hn : n ≤ tl.length
    · simp only [readStr, if_pos hn, Option.some.injEq, Prod.mk.injEq] at h
      obtain ⟨hs, hr⟩ := h
      subst hs hr
      simp [encStr, List.length_take, Nat.min_eq_left hn]
    · simp [readStr, if_neg hn] at h

theorem readOpt_strict {l : Bytes} {o : Option Nat} {rest : Bytes}
    (h : readOpt l = some (o, rest)) : l = encOpt o ++ rest := by
  match l with
  | [] => simp [readOpt] at h
  | t :: tl =>
    by_cases h0 : t = 0
    · simp only [readOpt, if_pos h0, Option.some.injEq, Prod.mk.injEq] at h
      obtain ⟨ho, hr⟩ := h
      subst h0 hr; rw [← ho]; simp [encOpt]
    · by_cases h1 : t = 1
      · match tl with
        | [] => simp [readOpt, if_neg h0, if_pos h1] at h
        | e :: tl2 =>
          simp only [readOpt, if_neg h0, if_pos h1, Option.some.injEq, Prod.mk.injEq] at h
          obtain ⟨ho, hr⟩ := h
          subst h1 hr; rw [← ho]; simp [encOpt]
      · simp [readOpt, if_neg h0, if_neg h1] at h

theorem readNat_strict {l : Bytes} {n : Nat} {rest : Bytes}
    (h : readNat l = some (n, rest)) : l = n :: rest := by
  match l with
  | [] => simp [readNat] at h
  | m :: tl =>
    simp only [readNat, Option.some.injEq, Prod.mk.injEq] at h
    obtain ⟨hn, hr⟩ := h
    rw [hn, hr]

theorem parseData_serialize (d : LicenseData) (rest : Bytes) :
    parseData (serializeData d ++ rest) = some (d, rest) := by
  obtain ⟨e, nm, mt, ex, cr, u⟩ := d
  simp only [serializeData, List.append_assoc]
  simp [parseData, readStr_encStr, readOpt_encOpt, readNat_cons]

theorem parseData_strict {l : Bytes} {d : LicenseData} {rest : Bytes}
    (h : parseData l = some (d, rest)) : l = serializeData d ++ rest := by
  simp only [parseData] at h
  cases h1 : readStr l with
  | none => simp only [h1] at h; exact Option.noConfusion h
  | some v1 =>
    obtain ⟨email, l1⟩ := v1
    simp only [h1] at h
    cases h2 : readStr l1 with
    | none => simp only [h2] at h; exact Option.noConfusion h
    | some v2 =>
      obtain ⟨name, l2⟩ := v2
      simp only [h2] at h
      cases h3 : readStr l2 with
      | none => simp only [h3] at h; exact Option.noConfusion h
      | some v3 =>
        obtain ⟨meta, l3⟩ := v3
        simp only [h3] at h
        cases h4 : readOpt l3 with
        | none => simp only [h4] at h; exact Option.noConfusion h
        | some v4 =>
          obtain ⟨expiresAt, l4⟩ := v4
          simp only [h4] at h
          cases h5 : readNat l4 with
          | none => simp only [h5] at h; exact Option.noConfusion h
          | some v5 =>
            obtain ⟨createdAt, l5⟩ := v5
            simp only [h5] at h
            cases h6 : readStr l5 with
            | none => simp only [h6] at h; exact Option.noConfusion h
            | some v6 =>
              obtain ⟨uid, l6⟩ := v6
              simp only [h6, Option.some.injEq, Prod.mk.injEq] at h
              obtain ⟨hd, hr⟩ := h
              subst hd hr
              rw [readStr_strict h1, readStr_strict h2, readStr_strict h3,
                readOpt_strict h4, readNat_strict h5, readStr_strict h6]
              simp [serializeData]

theorem parseDataAll_serialize (d : LicenseData) :
    parseDataAll (serializeData d) = some d := by
  have := parseData_serialize d []
  rw [List.append_nil] at this
  simp [parseDataAll, this]

theorem parseDataAll_strict {l : Bytes} {d : LicenseData}
    (h : parseDataAll l = some d) : l = serializeData d := by
  simp only [parseDataAll] at h
  cases hp : parseData l with
  | none => rw [hp] at h; exact absurd h (by simp)
  | some v =>
    obtain ⟨d2, rest⟩ := v
    rw [hp] at h
    match rest, h with
    | [], h =>
      have hd : d2 = d := by simpa using h
      subst hd
      simpa using parseData_strict hp

/-! ### License records and the verify / deactivate routes

The record schema of models/license.model.js: licenseKey, licenseData,
platform, saleId, email, machineIds, activations (a counter), maxActivations
(default 3), createdAt, expiresAt, isActive. -/

/-- The platform enum of the license schema. -/
inductive Platform where
  | gumroad
  | appsumo
  | stripe
  | manual
deriving DecidableEq, Repr

/-- A stored license record (models/license.model.js). -/
structure LicenseRec where
  licenseKey : Bytes
  licenseData : LicenseData
  platform : Platform
  saleId : Bytes
  email : Bytes
  machineIds : List Bytes
  activations : Nat
  maxActivations : Nat
  createdAt : Nat
  expiresAt : Option Nat
  isActive : Bool
deriving DecidableEq, Repr

/-- The failure reasons reported by the verify route of
routes/license.routes.js (the key-level reasons are passed through from
verifyLicenseKey). -/
inductive RouteReason where
  | keyInvalidFormat
  | keyInvalidSignature
  | keyExpired
  | notFound
  | inactive
  | expired
  | quotaReached
deriving DecidableEq, Repr

/-- The response of the verify route: valid false with a reason, or valid
true with the email and expiry date of the record. -/
inductive VerifyOutcome where
  | invalid (reason : RouteReason)
  | ok (email : Bytes) (expiryDate : Option Nat)
deriving DecidableEq, Repr

/-- Record-level expiry test of the verify route: expiresAt present and
now strictly past it. -/
def recExpired (lic : LicenseRec) (now : Nat) : Bool :=
  match lic.expiresAt with
  | some e => decide (e < now)
  | none => false

/-- The POST /verify handler of routes/license.routes.js.  The lookup
argument is the result of the findOne on licenseKey.  Check order, as in
the source: key signature and format, record existence, isActive flag,
record expiry, then the machine-activation step.  A request whose machineId
is absent (or empty, which is falsy in the source) is modelled with
machineId none and skips the activation step.  For a fresh machine id the
quota guard compares the activations counter with maxActivations; on
success the machine id is appended and the counter incremented.  The second
component of the result is the stored record after the call. -/
def verifyRoute (mac : Bytes → Bytes → Bytes) (secret : Bytes)
    (sigLen now : Nat) (lookup : Option LicenseRec) (licenseKey : Bytes)
    (machineId : Option Bytes) : VerifyOutcome × Option LicenseRec :=
  match verifyLicenseKey mac secret sigLen now licenseKey with
  | .invalidFormat => (.invalid .keyInvalidFormat, lookup)
  | .invalidSignature => (.invalid .keyInvalidSignature, lookup)
  | .expired => (.invalid .keyExpired, lookup)
  | .valid _ =>
    match lookup with
    | none => (.invalid .notFound, none)
    | some lic =>
      if lic.isActive = false then (.invalid .inactive, some lic)
      else if recExpired lic now then (.invalid .expired, some lic)
      else
        match machineId with
        | none => (.ok lic.email lic.expiresAt, some lic)
        | some m =>
          if m ∈ lic.machineIds then (.ok lic.email lic.expiresAt, some lic)
          else if lic.maxActivations ≤ lic.activations then
            (.invalid .quotaReached, some lic)
          else
            (.ok lic.email lic.expiresAt,
             some { lic with machineIds := lic.machineIds ++ [m],
                             activations := lic.activations + 1 })

/-- Response of the deactivate route. -/
inductive DeactivateOutcome where
  | notFound
  | ok
deriving DecidableEq, Repr

/-- The POST /deactivate handler of routes/license.routes.js: filter the
machine id out of machineIds and decrement the activations counter with a
floor at zero (Math.max(0, activations - 1)); both happen unconditionally
once the record is found. -/
def deactivateRoute (lookup : Option LicenseRec) (machineId : Bytes) :
    DeactivateOutcome × Option LicenseRec :=
  match lookup with
  | none => (.notFound, none)
  | some lic =>
    (.ok,
     some { lic with machineIds := lic.machineIds.filter (fun x => x ≠ machineId),
                     activations := lic.activations - 1 })

/-- One ledger operation against a single license record: an activation
(a verify request carrying a machine id, using the record's own license
key) or a deactivation. -/
inductive LedgerOp where
  | activate (m : Bytes)
  | deactivate (m : Bytes)
deriving DecidableEq, Repr

/-- Apply one ledger operation to a record, keeping the stored record
returned by the route handler. -/
def applyLedgerOp (mac : Bytes → Bytes → Bytes) (secret : Bytes)
    (sigLen now : Nat) (lic : LicenseRec) : LedgerOp → LicenseRec
  | .activate m =>
    ((verifyRoute mac secret sigLen now (some lic) lic.licenseKey (some m)).2).getD lic
  | .deactivate m =>
    ((deactivateRoute (some lic) m).2).getD lic

/-- Run a sequence of ledger operations from a starting record. -/
def runLedgerOps (mac : Bytes → Bytes → Bytes) (secret : Bytes)
    (sigLen now : Nat) (lic : LicenseRec) (ops : List LedgerOp) : LicenseRec :=
  ops.foldl (applyLedgerOp mac secret sigLen now) lic

/-! ### The Gumroad webhook (routes in webhook.routes.js) -/

/-- The fields of a Gumroad sale webhook used by the handler. -/
structure GumroadEvent where
  sellerId : Bytes
  email : Bytes
  productId : Bytes
  saleId : Bytes
deriving DecidableEq, Repr

/-- Response of the Gumroad webhook handler. -/
inductive WebhookResp where
  | unauthorized
  | alreadyExists
  | created (licenseKey : Bytes)
deriving DecidableEq, Repr

/-- One year after now: the model of
expirationDate.setFullYear(getFullYear() + 1), abstracting calendar-year
arithmetic as a fixed 365-day offset in milliseconds. -/
def oneYearAfter (now : Nat) : Nat := now + 31536000000

/-- The POST /gumroad webhook handler: check the seller id against the
configured one, look for an existing record with this saleId (the
idempotence check), and otherwise generate a key with one year of validity
and append a new gumroad record with the schema defaults (no machines,
zero activations, maxActivations three, active).  The now and uid
arguments model the server clock and the random unique id drawn during
this call. -/
def gumroadWebhook (mac : Bytes → Bytes → Bytes) (secret : Bytes)
    (cfgSellerId : Bytes) (now : Nat) (uid : Bytes) (ev : GumroadEvent)
    (store : List LicenseRec) : WebhookResp × List LicenseRec :=
  if ev.sellerId ≠ cfgSellerId then (.unauthorized, store)
  else
    match store.find? (fun r => decide (r.saleId = ev.saleId)) with
    | some _ => (.alreadyExists, store)
    | none =>
      let expiry := oneYearAfter now
      let g := generateLicenseKey mac secret
        { email := ev.email, name := ev.productId, meta := [], expiresAt := some expiry }
        now uid
      (.created g.1,
       store ++ [{ licenseKey := g.1, licenseData := g.2, platform := .gumroad,
                   saleId := ev.saleId, email := ev.email, machineIds := [],
                   activations := 0, maxActivations := 3, createdAt := now,
                   expiresAt := some expiry, isActive := true }])

/-- Number of records in the store carrying a given saleId. -/
def countSale (store : List LicenseRec) (saleId : Bytes) : Nat :=
  (store.filter (fun r => decide (r.saleId = saleId))).length

/-! ### The monolithic server (enhanced server file)

That file carries its own License schema: licenseKey, email, name,
createdAt, expiresAt, isActive, source, an append-only activations array of
entries with timestamp, machineId, os, app and ip, and a metadata map.
Its verify handler records an activation entry on every successful
verification, with machineId defaulting to the string unknown, and its
admin activate and deactivate endpoints update only the isActive field via
findByIdAndUpdate. -/

/-- One entry of the append-only activations array. -/
structure ActivationEntry where
  timestamp : Nat
  machineId : Bytes
  os : Bytes
  app : Bytes
  ip : Bytes
deriving DecidableEq, Repr

/-- A license record of the monolithic server schema. -/
structure LicenseRec2 where
  id : Nat
  licenseKey : Bytes
  email : Bytes
  name : Bytes
  createdAt : Nat
  expiresAt : Option Nat
  isActive : Bool
  activations : List ActivationEntry
  metadata : List (Bytes × Bytes)
deriving DecidableEq, Repr

/-- The byte string of the literal unknown used as default for missing
client fields (character codes of the word unknown). -/
def unknownBytes : Bytes := [117, 110, 107, 110, 111, 119, 110]

/-- Record-level expiry test of the monolithic verify handler. -/
def recExpired2 (lic : LicenseRec2) (now : Nat) : Bool :=
  match lic.expiresAt with
  | some e => decide (e < now)
  | none => false

/-- The POST /api/license/verify handler of the monolithic server: key
check, existence, isActive, record expiry, then unconditionally append an
activation entry (machineId, os and app default to unknown when absent or
falsy) and save.  There is no machineIds set, no activation counter and no
quota in this schema. -/
def verifyRoute2 (mac : Bytes → Bytes → Bytes) (secret : Bytes)
    (sigLen now : Nat) (lookup : Option LicenseRec2) (licenseKey : Bytes)
    (machineId os app : Option Bytes) (ip : Bytes) :
    VerifyOutcome × Option LicenseRec2 :=
  match verifyLicenseKey mac secret sigLen now licenseKey with
  | .invalidFormat => (.invalid .keyInvalidFormat, lookup)
  | .invalidSignature => (.invalid .keyInvalidSignature, lookup)
  | .expired => (.invalid .keyExpired, lookup)
  | .valid _ =>
    match lookup with
    | none => (.invalid .notFound, none)
    | some lic =>
      if lic.isActive = false then (.invalid .inactive, some lic)
      else if recExpired2 lic now then (.invalid .expired, some lic)
      else
        let entry : ActivationEntry :=
          { timestamp := now, machineId := machineId.getD unknownBytes,
            os := os.getD unknownBytes, app := app.getD unknownBytes, ip := ip }
        (.ok lic.email lic.expiresAt,
         some { lic with activations := lic.activations ++ [entry] })

/-- The admin activate / deactivate endpoints of the monolithic server
(and the equivalent load, set isActive, save sequence of the admin routes
file): findByIdAndUpdate with an update document containing only the
isActive field, applied to every record whose id matches. -/
def setActiveFlag (store : List LicenseRec2) (i : Nat) (b : Bool) : List LicenseRec2 :=
  store.map (fun r => if r.id = i then { r with isActive := b } else r)

/-! ### Helper lemmas -/

/-- Verifying a freshly issued token reduces to the expiry test on the
issued payload, for any MAC whose tag on this payload has the expected
length. -/
theorem verify_generate (mac : Bytes → Bytes → Bytes) (secret : Bytes)
    (sigLen : Nat) (p : InputData) (now tv : Nat) (uid : Bytes)
    (hlen : (mac secret (serializeData (issuedData p now uid))).length = sigLen) :
    verifyLicenseKey mac secret sigLen tv (generateLicenseKey mac secret p now uid).1
      = match (issuedData p now uid).expiresAt with
        | some e => if e < tv then .expired else .valid (issuedData p now uid)
        | none => .valid (issuedData p now uid) := by
  have hkey : (generateLicenseKey mac secret p now uid).1
      = serializeData (issuedData p now uid)
        ++ mac secret (serializeData (issuedData p now uid)) := rfl
  have h1 : (serializeData (issuedData p now uid)
      ++ mac secret (serializeData (issuedData p now uid))).length - sigLen
      = (serializeData (issuedData p now uid)).length := by
    simp [List.length_append, hlen]
  simp only [verifyLicenseKey, hkey, h1, List.take_left, List.drop_left,
    parseDataAll_serialize, if_pos rfl, if_true]

/-- Overwriting position j with a value different from the one stored
there changes the list. -/
theorem set_ne_of_getElem_ne {l : List Nat} {j x : Nat} (hj : j < l.length)
    (hx : x ≠ l.get ⟨j, hj⟩) : l.set j x ≠ l := by
  intro he
  apply hx
  have h1 : (l.set j x)[j]? = some x := List.getElem?_set_self (by simpa using hj)
  rw [he, List.getElem?_eq_getElem hj] at h1
  simpa [List.get_eq_getElem] using (Option.some.inj h1).symm

/-! ### Concrete fixtures for witnesses and counterexamples -/

/-- A sample MAC used for concrete evaluation: the tag is the message
itself (injective, so trivially collision-free). -/
def macS : Bytes → Bytes → Bytes := fun _ m => m

/-- A sample signing secret. -/
def secretS : Bytes := [3]

/-- A sample issuance payload with no expiry. -/
def inputS : InputData := { email := [5], name := [], meta := [], expiresAt := none }

/-- The payload issued from inputS at time 7 with uid 9. -/
def dataS : LicenseData := issuedData inputS 7 [9]

/-- The token issued from inputS at time 7 with uid 9 under macS. -/
def keyS : Bytes := (generateLicenseKey macS secretS inputS 7 [9]).1

/-- The tag length of macS on dataS (the serialized payload has eight
symbols and macS is the identity on the message). -/
def sigLenS : Nat := 8

/-- A sample issuance payload whose expiry is already in the past at
issue time. -/
def inputExpired : InputData := { email := [5], name := [], meta := [], expiresAt := some 0 }

/-- A freshly created license record for keyS with the schema defaults
(no machines, zero activations, maxActivations three, active). -/
def freshLicS : LicenseRec :=
  { licenseKey := keyS, licenseData := dataS, platform := .manual, saleId := [],
    email := [5], machineIds := [], activations := 0, maxActivations := 3,
    createdAt := 7, expiresAt := none, isActive := true }

/-- A record with two bound machines and an activation counter of two. -/
def licTwoS : LicenseRec :=
  { freshLicS with machineIds := [[1], [2]], activations := 2 }

/-- The record reached from freshLicS by activating three distinct
machines and then deactivating a machine id that was never bound. -/
def licDesyncS : LicenseRec :=
  runLedgerOps macS secretS sigLenS 7 freshLicS
    [.activate [1], .activate [2], .activate [21], .deactivate [99]]

/-- A sample record of the monolithic-server schema. -/
def licMonoS : LicenseRec2 :=
  { id := 1, licenseKey := keyS, email := [5], name := [], createdAt := 7,
    expiresAt := none, isActive := true, activations := [], metadata := [] }

/-- A sample Gumroad sale event. -/
def evS : GumroadEvent := { sellerId := [8], email := [5], productId := [], saleId := [12] }

/-! ### Claims -/

/-- Claim C2: the spec invariant says the number of currently bound
machine ids never exceeds maxActivations along any sequence of activate
and deactivate operations from a fresh record.  The code violates it:
deactivate decrements the activations counter even when the given machine
id is not bound (the filter leaves machineIds unchanged while
Math.max(0, activations - 1) still fires), so the counter used by the
quota guard falls below the size of the bound set and a later activation
pushes the bound set past maxActivations.  This theorem evaluates the
embedded routes at the failing input: from a fresh record with
maxActivations three, activating three distinct machines, deactivating a
never-bound machine and activating a fourth distinct machine leaves four
machine ids bound. -/
theorem C2_quotaInvariantViolated :
    (runLedgerOps macS secretS sigLenS 7 freshLicS
      [.activate [1], .activate [2], .activate [21], .deactivate [99], .activate [4]]).machineIds.length = 4
    ∧ freshLicS.maxActivations = 3 := by decide

/-- Claim C7 (amended): deactivating a machine id that is not bound is
not an error and leaves the bound set unchanged, and the activation
counter never goes below zero; however, contrary to the claim, the call is
not a complete no-op: the activation counter is decremented by one
(floored at zero) even though no binding was removed. -/
theorem C7_deactivateUnbound (lic : LicenseRec) (m : Bytes)
    (h : m ∉ lic.machineIds) :
    deactivateRoute (some lic) m
      = (.ok, some { lic with activations := lic.activations - 1 }) := by
  have hfilter : lic.machineIds.filter (fun x => x ≠ m) = lic.machineIds :=
    List.filter_eq_self.mpr (fun a ha => decide_eq_true (fun he => h (he ▸ ha)))
  simp only [deactivateRoute, hfilter]

theorem C7_deactivateUnbound_witness :
    deactivateRoute (some licTwoS) [9] = (.ok, some { licTwoS with activations := 1 }) :=
  C7_deactivateUnbound licTwoS [9] (by decide)

/-- Claim C7 counterexample: the claim as stated says the record's
activation count is unchanged by deactivating an unbound machine id; on
the record with two bound machines and counter two, deactivating the
unbound id 9 leaves the bound set unchanged but drops the counter to
one. -/
theorem C7_counterexample :
    [9] ∉ licTwoS.machineIds
    ∧ (deactivateRoute (some licTwoS) [9]).2
        = some { licTwoS with machineIds := licTwoS.machineIds, activations := 1 }
    ∧ licTwoS.activations = 2 := by decide

/-- Claim C8 (amended): in the routes/license.routes.js verify handler, a
verification request that omits machineId only runs the validity checks
and never mutates the stored record, whatever the outcome.  (The
monolithic server's verify handler does not have this property; see the
counterexample.) -/
theorem C8_noMachineIdNoMutation (mac : Bytes → Bytes → Bytes) (secret : Bytes)
    (sigLen now : Nat) (lookup : Option LicenseRec) (key : Bytes) :
    (verifyRoute mac secret sigLen now lookup key none).2 = lookup := by
  simp only [verifyRoute]
  cases hk : verifyLicenseKey mac secret sigLen now key with
  | invalidFormat => rfl
  | invalidSignature => rfl
  | expired => rfl
  | valid d =>
    cases lookup with
    | none => rfl
    | some lic =>
      by_cases h1 : lic.isActive = false
      · simp [h1]
      · by_cases h2 : recExpired lic now
        · simp [h1, h2]
        · simp [h1, h2]

/-- Claim C8 counterexample: the monolithic server's verify handler
appends an activation entry (with machineId defaulted to the string
unknown) and saves the record even when the request omits machineId, so
the record is not unchanged by such a call. -/
theorem C8_counterexample :
    (verifyRoute2 macS secretS sigLenS 7 (some licMonoS) keyS none none none []).2
        ≠ some licMonoS
    ∧ (verifyRoute2 macS secretS sigLenS 7 (some licMonoS) keyS none none none []).2
        = some { licMonoS with
                   activations := [⟨7, unknownBytes, unknownBytes, unknownBytes, []⟩] } := by
  decide

/-- Claim C10: the admin activate and deactivate endpoints change only the
isActive field of the targeted record: projecting every record of the
store onto all fields other than isActive gives the same list before and
after, and a disable-then-enable cycle equals a plain enable, so no
activation state is reset. -/
theorem C10_adminOnlyIsActive (store : List LicenseRec2) (i : Nat) (b : Bool) :
    (setActiveFlag store i b).map
        (fun r => (r.id, r.licenseKey, r.email, r.name, r.createdAt,
                   r.expiresAt, r.metadata, r.activations))
      = store.map
        (fun r => (r.id, r.licenseKey, r.email, r.name, r.createdAt,
                   r.expiresAt, r.metadata, r.activations))
    ∧ setActiveFlag (setActiveFlag store i false) i true = setActiveFlag store i true := by
  constructor
  · simp only [setActiveFlag, List.map_map]
    apply List.map_congr_left
    intro r _
    by_cases h : r.id = i <;> simp [h]
  · simp only [setActiveFlag, List.map_map]
    apply List.map_congr_left
    intro r _
    by_cases h : r.id = i <;> simp [h]

/-- Claim C1 (amended): in the verify route, once the key check, record
lookup, isActive and expiry checks pass, a request carrying a machine id
that is not currently bound succeeds and binds it exactly when the
record's activations counter (not the size of the bound set, which can
lag behind it after a deactivation of an unbound id) is strictly below
maxActivations; when the counter has reached maxActivations the call
fails with the quota reason and the record is unchanged; and re-presenting
an already-bound machine id succeeds without changing the record at
all. -/
theorem C1_activationQuota (mac : Bytes → Bytes → Bytes) (secret : Bytes)
    (sigLen now : Nat) (key m : Bytes) (lic : LicenseRec) (d : LicenseData)
    (hkey : verifyLicenseKey mac secret sigLen now key = .valid d)
    (hact : lic.isActive = true)
    (hexp : recExpired lic now = false) :
    (m ∉ lic.machineIds → lic.activations < lic.maxActivations →
       verifyRoute mac secret sigLen now (some lic) key (some m)
         = (.ok lic.email lic.expiresAt,
            some { lic with machineIds := lic.machineIds ++ [m],
                            activations := lic.activations + 1 }))
    ∧ (m ∉ lic.machineIds → lic.maxActivations ≤ lic.activations →
       verifyRoute mac secret sigLen now (some lic) key (some m)
         = (.invalid .quotaReached, some lic))
    ∧ (m ∈ lic.machineIds →
       verifyRoute mac secret sigLen now (some lic) key (some m)
         = (.ok lic.email lic.expiresAt, some lic)) := by
  refine ⟨fun hm hq => ?_, fun hm hq => ?_, fun hm => ?_⟩
  · simp [verifyRoute, hkey, hact, hexp, hm, Nat.not_le.mpr hq]
  · simp [verifyRoute, hkey, hact, hexp, hm, hq]
  · simp [verifyRoute, hkey, hact, hexp, hm]

theorem C1_activationQuota_witness :
    verifyRoute macS secretS sigLenS 7 (some freshLicS) keyS (some [1])
      = (.ok freshLicS.email freshLicS.expiresAt,
         some { freshLicS with machineIds := [[1]], activations := 1 }) :=
  (C1_activationQuota macS secretS sigLenS 7 keyS [1] freshLicS dataS
      (by decide) (by decide) (by decide)).1 (by decide) (by decide)

/-- Claim C1 counterexample: reading the claim's bound count as the number
of currently bound machine ids (as the spec's data model defines it), the
record licDesyncS is reachable from a fresh record by activate and
deactivate operations, has three bound ids with maxActivations three, yet
a request with the new machine id 4 succeeds and binds it instead of
failing with the quota reason. -/
theorem C1_counterexample :
    licDesyncS.machineIds.length = licDesyncS.maxActivations
    ∧ [4] ∉ licDesyncS.machineIds
    ∧ verifyRoute macS secretS sigLenS 7 (some licDesyncS) keyS (some [4])
        = (.ok licDesyncS.email licDesyncS.expiresAt,
           some { licDesyncS with machineIds := licDesyncS.machineIds ++ [[4]],
                                  activations := licDesyncS.activations + 1 }) := by
  decide

/-- Claim C9: whenever a verification call reports valid false, for any of
the failure reasons (key format or signature, key expiry, record not
found, inactive, record expiry, quota), the stored record is exactly as it
was before the call; this holds for both verify handlers in the
repository. -/
theorem C9_failureLeavesRecordUnchanged :
    (∀ (mac : Bytes → Bytes → Bytes) (secret : Bytes) (sigLen now : Nat)
        (lookup : Option LicenseRec) (key : Bytes) (mid : Option Bytes)
        (r : RouteReason),
      (verifyRoute mac secret sigLen now lookup key mid).1 = .invalid r →
      (verifyRoute mac secret sigLen now lookup key mid).2 = lookup)
    ∧ (∀ (mac : Bytes → Bytes → Bytes) (secret : Bytes) (sigLen now : Nat)
        (lookup : Option LicenseRec2) (key : Bytes) (mid os ap : Option Bytes)
        (ip : Bytes) (r : RouteReason),
      (verifyRoute2 mac secret sigLen now lookup key mid os ap ip).1 = .invalid r →
      (verifyRoute2 mac secret sigLen now lookup key mid os ap ip).2 = lookup) := by
  constructor
  · intro mac secret sigLen now lookup key mid r h
    simp only [verifyRoute] at h ⊢
    cases hk : verifyLicenseKey mac secret sigLen now key with
    | invalidFormat => rfl
    | invalidSignature => rfl
    | expired => rfl
    | valid d =>
      rw [hk] at h
      cases lookup with
      | none => rfl
      | some lic =>
        by_cases h1 : lic.isActive = false
        · simp [h1]
        · by_cases h2 : recExpired lic now
          · simp [h1, h2]
          · cases mid with
            | none => simp [h1, h2] at h
            | some m =>
              by_cases h3 : m ∈ lic.machineIds
              · simp [h1, h2, h3] at h
              · by_cases h4 : lic.maxActivations ≤ lic.activations
                · simp [h1, h2, h3, h4]
                · simp [h1, h2, h3, h4] at h
  · intro mac secret sigLen now lookup key mid os ap ip r h
    simp only [verifyRoute2] at h ⊢
    cases hk : verifyLicenseKey mac secret sigLen now key with
    | invalidFormat => rfl
    | invalidSignature => rfl
    | expired => rfl
    | valid d =>
      rw [hk] at h
      cases lookup with
      | none => rfl
      | some lic =>
        by_cases h1 : lic.isActive = false
        · simp [h1]
        · by_cases h2 : recExpired2 lic now
          · simp [h1, h2]
          · simp [h1, h2] at h

theorem C9_failureLeavesRecordUnchanged_witness :
    (verifyRoute macS secretS sigLenS 7 (some licTwoS) [] none).2 = some licTwoS
    ∧ (verifyRoute2 macS secretS sigLenS 7 (some licMonoS) [] none none none []).2
        = some licMonoS :=
  ⟨C9_failureLeavesRecordUnchanged.1 macS secretS sigLenS 7 (some licTwoS) [] none
      .keyInvalidFormat (by decide),
   C9_failureLeavesRecordUnchanged.2 macS secretS sigLenS 7 (some licMonoS) [] none none none []
      .keyInvalidFormat (by decide)⟩

/-- Claim C3: submitting the same Gumroad sale webhook more than once
creates exactly one license record: starting from a store with no record
for this saleId, the first authentic submission leaves exactly one record
with that saleId, and a second submission of the same event (at any later
clock and with any fresh uid) returns the already-exists success response
and leaves the store exactly as it was. -/
theorem C3_idempotentIssuance (mac : Bytes → Bytes → Bytes) (secret : Bytes)
    (cfg : Bytes) (now1 now2 : Nat) (uid1 uid2 : Bytes) (ev : GumroadEvent)
    (store : List LicenseRec)
    (hauth : ev.sellerId = cfg)
    (h0 : ∀ r ∈ store, r.saleId ≠ ev.saleId) :
    countSale (gumroadWebhook mac secret cfg now1 uid1 ev store).2 ev.saleId = 1
    ∧ gumroadWebhook mac secret cfg now2 uid2 ev
        (gumroadWebhook mac secret cfg now1 uid1 ev store).2
      = (.alreadyExists, (gumroadWebhook mac secret cfg now1 uid1 ev store).2) := by
  have hfind : store.find? (fun r => decide (r.saleId = ev.saleId)) = none :=
    List.find?_eq_none.mpr (fun r hr => by simpa using h0 r hr)
  have hfirst : (gumroadWebhook mac secret cfg now1 uid1 ev store).2
      = store ++ [{ licenseKey := (generateLicenseKey mac secret
                      { email := ev.email, name := ev.productId, meta := [],
                        expiresAt := some (oneYearAfter now1) } now1 uid1).1,
                    licenseData := (generateLicenseKey mac secret
                      { email := ev.email, name := ev.productId, meta := [],
                        expiresAt := some (oneYearAfter now1) } now1 uid1).2,
                    platform := .gumroad, saleId := ev.saleId, email := ev.email,
                    machineIds := [], activations := 0, maxActivations := 3,
                    createdAt := now1, expiresAt := some (oneYearAfter now1),
                    isActive := true }] := by
    simp [gumroadWebhook, hauth, hfind]
  constructor
  · rw [hfirst]
    simp only [countSale, List.filter_append]
    rw [List.filter_eq_nil_iff.mpr (fun r hr => by simpa using h0 r hr)]
    simp
  · rw [hfirst]
    simp [gumroadWebhook, hauth, List.find?_append, hfind]

theorem C3_idempotentIssuance_witness :
    countSale (gumroadWebhook macS secretS [8] 7 [9] evS []).2 evS.saleId = 1
    ∧ gumroadWebhook macS secretS [8] 11 [10] evS (gumroadWebhook macS secretS [8] 7 [9] evS []).2
      = (.alreadyExists, (gumroadWebhook macS secretS [8] 7 [9] evS []).2) :=
  C3_idempotentIssuance macS secretS [8] 7 11 [9] [10] evS [] (by decide) (by simp)

/-- Claim C5 (amended): for every payload P whose expiry, when present,
has not yet passed at verification time, verifying the token produced by
issuing P succeeds and returns all of P's fields unchanged, with exactly
the uid and the createdAt timestamp added by issuance.  (Without the
expiry proviso the claim fails: see the counterexample.) -/
theorem C5_roundTrip (mac : Bytes → Bytes → Bytes) (secret : Bytes)
    (sigLen : Nat) (p : InputData) (now tv : Nat) (uid : Bytes)
    (hlen : (mac secret (serializeData (issuedData p now uid))).length = sigLen)
    (hexp : ∀ e, p.expiresAt = some e → tv ≤ e) :
    verifyLicenseKey mac secret sigLen tv (generateLicenseKey mac secret p now uid).1
      = .valid { email := p.email, name := p.name, meta := p.meta,
                 expiresAt := p.expiresAt, createdAt := now, uid := uid } := by
  rw [verify_generate mac secret sigLen p now tv uid hlen]
  cases hp : p.expiresAt with
  | none => simp [issuedData, hp]
  | some e =>
    have hle : ¬ e < tv := Nat.not_lt.mpr (hexp e hp)
    simp [issuedData, hp, hle]

theorem C5_roundTrip_witness :
    verifyLicenseKey macS secretS sigLenS 99 keyS
      = .valid { email := inputS.email, name := inputS.name, meta := inputS.meta,
                 expiresAt := inputS.expiresAt, createdAt := 7, uid := [9] } :=
  C5_roundTrip macS secretS sigLenS inputS 7 99 [9] (by decide)
    (fun e he => by simp [inputS] at he)

/-- Claim C5 counterexample: the claim quantifies over every payload P,
but for a payload carrying an expiry already in the past, verifying the
freshly issued token does not succeed: it reports the token as expired
even at the very instant of issuance. -/
theorem C5_counterexample :
    verifyLicenseKey macS secretS 9 1 (generateLicenseKey macS secretS inputExpired 1 [9]).1
      = .expired := by decide

/-- Claim C6: for a token issued with an expiry instant, verification at
any time strictly after that instant fails as expired, and verification at
any time up to and including that instant does not fail for expiry: it
succeeds and returns the payload (the source compares with a strict
greater-than, so the boundary instant itself is still valid). -/
theorem C6_expiryBoundary (mac : Bytes → Bytes → Bytes) (secret : Bytes)
    (sigLen : Nat) (p : InputData) (e : Nat) (now tv : Nat) (uid : Bytes)
    (hp : p.expiresAt = some e)
    (hlen : (mac secret (serializeData (issuedData p now uid))).length = sigLen) :
    (e < tv →
      verifyLicenseKey mac secret sigLen tv (generateLicenseKey mac secret p now uid).1
        = .expired)
    ∧ (tv ≤ e →
      verifyLicenseKey mac secret sigLen tv (generateLicenseKey mac secret p now uid).1
        = .valid (issuedData p now uid)) := by
  rw [verify_generate mac secret sigLen p now tv uid hlen,
    show (issuedData p now uid).expiresAt = some e from hp]
  constructor
  · intro hlt; simp [hlt]
  · intro hle; simp [Nat.not_lt.mpr hle]

theorem C6_expiryBoundary_witness :
    verifyLicenseKey macS secretS 9 5 (generateLicenseKey macS secretS inputExpired 1 [9]).1
      = .expired
    ∧ verifyLicenseKey macS secretS 9 0 (generateLicenseKey macS secretS inputExpired 1 [9]).1
      = .valid (issuedData inputExpired 1 [9]) :=
  ⟨(C6_expiryBoundary macS secretS 9 inputExpired 0 1 5 [9] (by decide) (by decide)).1
      (by decide),
   (C6_expiryBoundary macS secretS 9 inputExpired 0 1 0 [9] (by decide) (by decide)).2
      (by decide)⟩

/-- Claim C4: for a token issued by the signer, modifying any single
symbol of the encoded token (a set at position i with a value different
from the one stored there) makes verification return invalid format or
invalid signature, never a valid result.  The MAC is abstract here; the
hypothesis hcol states that no other message collides with the issued
payload's serialization under the MAC, which models the collision
resistance of HMAC-SHA256. -/
theorem C4_tamperDetection (mac : Bytes → Bytes → Bytes) (secret : Bytes)
    (sigLen : Nat) (p : InputData) (now tv : Nat) (uid : Bytes) (i c : Nat)
    (hlen : (mac secret (serializeData (issuedData p now uid))).length = sigLen)
    (hcol : ∀ m2, m2 ≠ serializeData (issuedData p now uid) →
        mac secret m2 ≠ mac secret (serializeData (issuedData p now uid)))
    (hi : i < (generateLicenseKey mac secret p now uid).1.length)
    (hc : c ≠ (generateLicenseKey mac secret p now uid).1.get ⟨i, hi⟩) :
    verifyLicenseKey mac secret sigLen tv
        ((generateLicenseKey mac secret p now uid).1.set i c) = .invalidFormat
    ∨ verifyLicenseKey mac secret sigLen tv
        ((generateLicenseKey mac secret p now uid).1.set i c) = .invalidSignature := by
  set d := issuedData p now uid with hd
  set sd := serializeData d with hsd
  set S := mac secret sd with hS
  have hi2 : i < (sd ++ S).length := hi
  have hc2 : c ≠ (sd ++ S).get ⟨i, hi2⟩ := hc
  show verifyLicenseKey mac secret sigLen tv ((sd ++ S).set i c) = .invalidFormat
      ∨ verifyLicenseKey mac secret sigLen tv ((sd ++ S).set i c) = .invalidSignature
  have hn : ((sd ++ S).set i c).length - sigLen = sd.length := by
    simp [List.length_set, List.length_append, hlen, ← hS]
  by_cases hiL : i < sd.length
  · have hset : (sd ++ S).set i c = sd.set i c ++ S := List.set_append_left i c hiL
    have htake : ((sd ++ S).set i c).take (((sd ++ S).set i c).length - sigLen)
        = sd.set i c := by
      rw [hn, hset]
      exact List.take_left' (by simp)
    have hdrop : ((sd ++ S).set i c).drop (((sd ++ S).set i c).length - sigLen) = S := by
      rw [hn, hset]
      exact List.drop_left' (by simp)
    have hcd : c ≠ sd.get ⟨i, hiL⟩ := by
      intro he
      apply hc2
      rw [he]
      simp only [List.get_eq_getElem]
      exact (List.getElem_append_left hiL).symm
    have hne : sd.set i c ≠ sd := set_ne_of_getElem_ne hiL hcd
    cases hparse : parseDataAll (sd.set i c) with
    | none =>
      left
      simp only [verifyLicenseKey, htake, hparse]
    | some d2 =>
      right
      have hstrict : sd.set i c = serializeData d2 := parseDataAll_strict hparse
      have hd2 : serializeData d2 ≠ sd := by rw [← hstrict]; exact hne
      have hmac : mac secret (serializeData d2) ≠ S := hcol (serializeData d2) hd2
      have hcond : ¬ (((sd ++ S).set i c).drop (((sd ++ S).set i c).length - sigLen)
          = mac secret (serializeData d2)) := by
        rw [hdrop]
        intro he
        exact hmac he.symm
      simp only [verifyLicenseKey, htake, hparse]
      rw [if_neg hcond]
  · have hge : sd.length ≤ i := Nat.le_of_not_lt hiL
    have hset : (sd ++ S).set i c = sd ++ S.set (i - sd.length) c :=
      List.set_append_right i c hge
    have htake : ((sd ++ S).set i c).take (((sd ++ S).set i c).length - sigLen) = sd := by
      rw [hn, hset]
      exact List.take_left' rfl
    have hdrop : ((sd ++ S).set i c).drop (((sd ++ S).set i c).length - sigLen)
        = S.set (i - sd.length) c := by
      rw [hn, hset]
      exact List.drop_left' rfl
    have hj : i - sd.length < S.length := by
      have h3 := hi2
      rw [List.length_append] at h3
      omega
    have hcS : c ≠ S.get ⟨i - sd.length, hj⟩ := by
      intro he
      apply hc2
      rw [he]
      simp only [List.get_eq_getElem]
      exact (List.getElem_append_right hge).symm
    have hneS : S.set (i - sd.length) c ≠ S := set_ne_of_getElem_ne hj hcS
    have hparse2 : parseDataAll sd = some d := by
      rw [hsd]
      exact parseDataAll_serialize d
    have hcond : ¬ (((sd ++ S).set i c).drop (((sd ++ S).set i c).length - sigLen)
        = mac secret (serializeData d)) := by
      rw [hdrop, ← hsd, ← hS]
      exact hneS
    right
    simp only [verifyLicenseKey, htake, hparse2]
    rw [if_neg hcond]

theorem C4_tamperDetection_witness :
    verifyLicenseKey macS secretS sigLenS 3 (keyS.set 0 0) = .invalidFormat
    ∨ verifyLicenseKey macS secretS sigLenS 3 (keyS.set 0 0) = .invalidSignature :=
  C4_tamperDetection macS secretS sigLenS inputS 7 3 [9] 0 0 (by decide)
    (fun m2 h => h) (by decide) (by decide)
